import Mathlib

/-!
# go-rpc: the vegetable inventory handlers

A shallow embedding of `core/core.go`, of the RPC handlers of
`server/server.go` (`CshowVegitable`, `CaddVegitable`, `CupdateVegitable`,
`writeToDB`), of the function `showVegitable` of the server menu and of
`menu.cleanCommand`.

Modelling conventions

* Go `string` values are Lean `String`s; `==` on strings is Lean equality and
  `+` is `++`.
* The package-level variables `vegitables` and `serverBusy`, together with the
  bytes of the file `db.xml`, form the explicit state `State` (the struct
  `server.Server`, which holds the port and the listener, has no part in the handlers).
* A handler receives the state, the request and the value `*res` points to, and
  gives back `none` when the Go code stops with an index-out-of-range run-time
  failure, and otherwise `some` of the returned `err`, the final `*res` and the
  final state.
* Handlers are run one at a time; the flag `serverBusy` found set on entry stands
  for another writer that holds it.
* `Handler.Sleep` only delays the return of `CshowVegitable` and is left out.
-/

set_option linter.dupNamespace false
set_option maxRecDepth 20000

namespace GoRpc

/-! ## core/core.go -/

/-- Go's `xml.Name`. -/
structure XmlName where
  Space : String
  Local : String
  deriving DecidableEq, Repr, Inhabited

/-- The struct `core.Vegitable`. -/
structure Vegitable where
  XMLName : XmlName
  Name : String
  PricePerKg : String
  RemainingKgs : String
  deriving DecidableEq, Repr, Inhabited

/-- The struct `core.Vegitables`. -/
structure Vegitables where
  XMLName : XmlName
  Vegitables : List Vegitable
  deriving DecidableEq, Repr, Inhabited

/-- The struct `core.Response`. -/
structure Response where
  Ok : Bool
  Message : String
  Vegitables : Vegitables
  deriving DecidableEq, Repr, Inhabited

/-- The struct `core.Request`. -/
structure Request where
  Command : List String
  deriving DecidableEq, Repr, Inhabited

/-- The zero value of `xml.Name`. -/
def XmlName.zero : XmlName := ⟨"", ""⟩

/-- The zero value of `core.Response`, as `new(core.Response)` and the reply value
allocated by `net/rpc` for each call. -/
def Response.zero : Response := ⟨false, "", ⟨XmlName.zero, []⟩⟩

/-! ## The state of the server process -/

/-- The package-level state of `server.go`: `vegitables`, `serverBusy`, and the bytes
of the file `db.xml` (a missing file is the empty sequence, since it is opened with
`O_CREATE`). -/
structure State where
  vegitables : Vegitables
  serverBusy : Bool
  db : List UInt8
  deriving DecidableEq, Inhabited

/-- What a handler hands back when it returns: the `err` result (`none` is `nil`), the
value of `*res`, and the state of the process. -/
structure Return where
  err : Option String
  res : Response
  srv : State
  deriving DecidableEq, Inhabited

/-! ## encoding/xml, as used by `writeToDB` -/

/-- One rune of `EscapeString` of Go's `encoding/xml` (characters outside the XML
character range become U+FFFD). -/
def escapeRune (c : Char) : String :=
  if c = '"' then "&#34;"
  else if c = '\'' then "&#39;"
  else if c = '&' then "&amp;"
  else if c = '<' then "&lt;"
  else if c = '>' then "&gt;"
  else if c = '\t' then "&#x9;"
  else if c = '\n' then "&#xA;"
  else if c = '\r' then "&#xD;"
  else if (0x20 ≤ c.toNat ∧ c.toNat ≤ 0xD7FF) ∨ (0xE000 ≤ c.toNat ∧ c.toNat ≤ 0xFFFD)
      ∨ (0x10000 ≤ c.toNat ∧ c.toNat ≤ 0x10FFFF) then String.singleton c
  else "�"

/-- The escaped character data `encoding/xml` writes for a string field. -/
def EscapeString (s : String) : String :=
  String.join (s.data.map escapeRune)

/-- The element written for one `core.Vegitable`, following its struct tags. -/
def marshalVegitable (v : Vegitable) : String :=
  "<vegitable><name>" ++ EscapeString v.Name ++ "</name><pricePerKg>"
    ++ EscapeString v.PricePerKg ++ "</pricePerKg><remainingKgs>"
    ++ EscapeString v.RemainingKgs ++ "</remainingKgs></vegitable>"

/-- The document `xml.NewEncoder(f).Encode(vegitables)` writes. -/
def xmlEncode (vs : Vegitables) : String :=
  "<vegitables>" ++ String.join (vs.Vegitables.map marshalVegitable) ++ "</vegitables>"

/-- The bytes of a string. -/
def utf8Bytes (s : String) : List UInt8 :=
  s.data.flatMap String.utf8EncodeChar

/-- Writing `new` at offset 0 of a file opened without `O_TRUNC`: the bytes of the old
content beyond the written length stay. -/
def writeAtStart (old new : List UInt8) : List UInt8 :=
  new ++ old.drop new.length

/-! ## server/server.go -/

/-- `writeToDB`: opens `db.xml` with `os.O_RDWR|os.O_CREATE` and encodes `vegitables`
into it from offset 0. Errors are printed and ignored; the file is taken to be
writable. -/
def writeToDB (s : State) : State :=
  { s with db := writeAtStart s.db (utf8Bytes (xmlEncode s.vegitables)) }

/-- The body reached by `for _, v := range vegitables.Vegitables { if v.Name == name
{ ... return } }`: the first record with the name, if any. -/
def rangeFind (name : String) (vs : List Vegitable) : Option Vegitable :=
  vs.find? (fun v => decide (v.Name = name))

/-- The index reached by `for v := 0; v < len(vegitables.Vegitables); v++ { if
vegitables.Vegitables[v].Name == name { ... return } }`: the first index with the name,
if any. -/
def indexFind (name : String) : List Vegitable → Option Nat
  | [] => none
  | x :: xs => if x.Name = name then some 0 else (indexFind name xs).map (· + 1)

/-- The assignment `vegitables.Vegitables[v].PricePerKg = value`. -/
def setPricePerKg (vs : Vegitables) (v : Nat) (value : String) : Vegitables :=
  { vs with Vegitables := vs.Vegitables.modify (fun x => { x with PricePerKg := value }) v }

/-- The assignment `vegitables.Vegitables[v].RemainingKgs = value`. -/
def setRemainingKgs (vs : Vegitables) (v : Nat) (value : String) : Vegitables :=
  { vs with Vegitables := vs.Vegitables.modify (fun x => { x with RemainingKgs := value }) v }

/-- The name `vegitables.Vegitables[v].Name` read for the success message. -/
def nameAt (vs : Vegitables) (v : Nat) : Option String :=
  (vs.Vegitables[v]?).map (·.Name)

/-- `Handler.CshowVegitable`. -/
def CshowVegitable (s : State) (req : Request) (res : Response) : Option Return :=
  match req.Command[0]? with
  | none => none
  | some c0 =>
    if c0 = "" then
      some ⟨some "Command shoud be specified!", res, s⟩
    else if c0 = "vegitable" then
      match req.Command[1]? with
      | none => none
      | some c1 =>
        if c1 = "all" then
          some ⟨none, { res with Message := "Command executed successfully!", Ok := true,
                                 Vegitables := s.vegitables }, s⟩
        else
          match rangeFind c1 s.vegitables.Vegitables with
          | some v =>
            some ⟨none, { res with Message := "Command executed successfully!", Ok := true,
                                   Vegitables := { res.Vegitables with
                                     Vegitables := res.Vegitables.Vegitables ++ [v] } }, s⟩
          | none =>
            some ⟨none, { res with Message := "Vegitable '" ++ c1 ++ "' is not found!",
                                   Ok := false }, s⟩
    else if c0 = "price" ∨ c0 = "stocks" then
      match req.Command[1]? with
      | none => none
      | some c1 =>
        match rangeFind c1 s.vegitables.Vegitables with
        | some v =>
          some ⟨none, { res with Message := "Command executed successfully!", Ok := true,
                                 Vegitables := { res.Vegitables with
                                   Vegitables := res.Vegitables.Vegitables ++ [v] } }, s⟩
        | none =>
          some ⟨none, { res with Message := "Vegitable '" ++ c1 ++ "' is not found!",
                                 Ok := false }, s⟩
    else
      match req.Command[1]? with
      | none => none
      | some c1 =>
        some ⟨none, { res with Message := "Unknown command format: " ++ c0 ++ " " ++ c1,
                               Ok := false }, s⟩

/-- `Handler.CaddVegitable`. -/
def CaddVegitable (s : State) (req : Request) (res : Response) : Option Return :=
  match req.Command[0]? with
  | none => none
  | some c0 =>
    if c0 = "" then
      some ⟨some "Command shoud be specified!", res, s⟩
    else if c0 = "vegitable" then
      if req.Command.length = 4 then
        match req.Command[1]?, req.Command[2]?, req.Command[3]? with
        | some c1, some c2, some c3 =>
          match rangeFind c1 s.vegitables.Vegitables with
          | some v =>
            some ⟨none, { res with Message := "Cannot add the vegitable! Vegitable '"
                                     ++ v.Name ++ "' already exists!", Ok := false }, s⟩
          | none =>
            let vegitable : Vegitable :=
              { XMLName := XmlName.zero, Name := c1, PricePerKg := c2, RemainingKgs := c3 }
            if s.serverBusy then
              some ⟨none, { res with Message := "Server is busy! Please try again later!",
                                     Ok := false }, s⟩
            else
              let s1 := { s with serverBusy := true }
              let s2 := { s1 with vegitables := { s1.vegitables with
                            Vegitables := s1.vegitables.Vegitables ++ [vegitable] } }
              let s3 := writeToDB s2
              let s4 := { s3 with serverBusy := false }
              some ⟨none, { res with Message := "Vegitable '" ++ vegitable.Name
                                       ++ "' is added successfully!", Ok := true }, s4⟩
        | _, _, _ => none
      else
        some ⟨none, { res with Message := "Invalid number of inputs for 'add vegitable' command!",
                               Ok := false }, s⟩
    else
      some ⟨none, { res with Message := "Unknown command format: 'add " ++ c0 ++ "'",
                             Ok := false }, s⟩

/-- The two branches of `Handler.CupdateVegitable` differ in the field that is assigned
and are otherwise the same text: the loop over the indices, the busy check at the
first index with the name, the assignment, `writeToDB`, the release of the flag. -/
def updateLoop (assign : Vegitables → Nat → String → Vegitables) (s : State)
    (req : Request) (res : Response) : Option Return :=
  match req.Command[1]?, req.Command[2]? with
  | some c1, some c2 =>
    match indexFind c1 s.vegitables.Vegitables with
    | some v =>
      if s.serverBusy then
        some ⟨none, { res with Message := "Server is busy! Please try again later!",
                               Ok := false }, s⟩
      else
        let s1 := { s with serverBusy := true }
        let s2 := { s1 with vegitables := assign s1.vegitables v c2 }
        let s3 := writeToDB s2
        let s4 := { s3 with serverBusy := false }
        match nameAt s4.vegitables v with
        | none => none
        | some name =>
          some ⟨none, { res with Message := "Vegitable '" ++ name
                                   ++ "' is updated successfully!", Ok := true }, s4⟩
    | none =>
      some ⟨none, { res with Message := "Vegitable '" ++ c1 ++ "' is not found!",
                             Ok := false }, s⟩
  | _, _ => none

/-- `Handler.CupdateVegitable`. -/
def CupdateVegitable (s : State) (req : Request) (res : Response) : Option Return :=
  match req.Command[0]? with
  | none => none
  | some c0 =>
    if c0 = "" then
      some ⟨some "Command shoud be specified!", res, s⟩
    else if c0 = "price" then
      if req.Command.length = 3 then
        updateLoop setPricePerKg s req res
      else
        some ⟨none, { res with Message := "Invalid number of inputs for 'update price' command!",
                               Ok := false }, s⟩
    else if c0 = "stocks" then
      if req.Command.length = 3 then
        updateLoop setRemainingKgs s req res
      else
        some ⟨none, { res with Message := "Invalid number of inputs for 'update price' command!",
                               Ok := false }, s⟩
    else
      some ⟨none, { res with Message := "Unknown command format: 'add " ++ c0 ++ "'",
                             Ok := false }, s⟩

/-! ## menu/menu.go -/

/-- The cut set of `strings.Trim(cmd, " \n")`. -/
def inCutset (c : Char) : Bool :=
  decide (c = ' ') || decide (c = '\n')

/-- Go's `strings.Trim(s, " \n")` on the characters of `s`. -/
def trimCutset (cs : List Char) : List Char :=
  ((cs.dropWhile inCutset).reverse.dropWhile inCutset).reverse

/-- Go's `strings.Split(s, " ")` on the characters of `s`: one more piece than there are
spaces, empty pieces included. -/
def splitSpace : List Char → List String
  | [] => [""]
  | c :: cs =>
    if c = ' ' then "" :: splitSpace cs
    else
      match splitSpace cs with
      | [] => [String.singleton c]
      | w :: ws => (String.singleton c ++ w) :: ws

/-- `cleanCommand` of the menu: `strings.Split(strings.Trim(cmd, " \n"), " ")`. -/
def cleanCommand (cmd : String) : List String :=
  splitSpace (trimCutset cmd.data)

/-! ## Calls served one after another -/

/-- A call of one of the three exposed methods with its request. -/
inductive Call where
  | cshow (req : Request)
  | cadd (req : Request)
  | cupdate (req : Request)
  deriving DecidableEq, Repr

/-- One call against the state, with the zero reply value `net/rpc` allocates for it. -/
def Call.exec (s : State) : Call → Option Return
  | .cshow req => CshowVegitable s req Response.zero
  | .cadd req => CaddVegitable s req Response.zero
  | .cupdate req => CupdateVegitable s req Response.zero

/-- A finite sequence of calls, each of which returns: the state after the last one.
The result is `none` as soon as a call stops with a run-time failure. -/
def runCalls : State → List Call → Option State
  | s, [] => some s
  | s, c :: cs =>
    match c.exec s with
    | none => none
    | some r => runCalls r.srv cs

/-- The names of the records of the store, in order. -/
def names (s : State) : List String :=
  s.vegitables.Vegitables.map (·.Name)

/-- The store has a record with the name. -/
def hasName (s : State) (n : String) : Prop :=
  ∃ v ∈ s.vegitables.Vegitables, v.Name = n

instance (s : State) (n : String) : Decidable (hasName s n) := by
  unfold hasName; infer_instance

/-- The message of the busy path of the mutating handlers. -/
def busyMessage : String := "Server is busy! Please try again later!"

/-- A store with the single record `carrot`, the flag free. -/
def carrotStore : State :=
  ⟨⟨XmlName.zero, [⟨XmlName.zero, "carrot", "2.50", "100"⟩]⟩, false, []⟩

/-- The store `carrotStore` with the flag held. -/
def carrotStoreBusy : State :=
  { carrotStore with serverBusy := true }

/-- The empty store, the flag free, no snapshot file. -/
def emptyStore : State :=
  ⟨⟨XmlName.zero, []⟩, false, []⟩

/-- A session on the client menu: an add, the same add again, an update of the price, a
listing, an update with one argument too many, and an add of a second vegetable. -/
def sessionCalls : List Call :=
  [ .cadd ⟨["vegitable", "carrot", "2.50", "100"]⟩,
    .cadd ⟨["vegitable", "carrot", "3.00", "50"]⟩,
    .cupdate ⟨["price", "carrot", "3.00"]⟩,
    .cshow ⟨["vegitable", "all"]⟩,
    .cupdate ⟨["stocks", "carrot", "7", "8"]⟩,
    .cadd ⟨["vegitable", "onion", "1.0", "5"]⟩ ]

/-- The state the session `sessionCalls` ends in when it starts from the empty store. -/
def sessionEnd : State :=
  ⟨⟨XmlName.zero, [⟨XmlName.zero, "carrot", "3.00", "100"⟩,
                   ⟨XmlName.zero, "onion", "1.0", "5"⟩]⟩, false,
    utf8Bytes ("<vegitables><vegitable><name>carrot</name><pricePerKg>3.00</pricePerKg>"
      ++ "<remainingKgs>100</remainingKgs></vegitable><vegitable><name>onion</name>"
      ++ "<pricePerKg>1.0</pricePerKg><remainingKgs>5</remainingKgs></vegitable>"
      ++ "</vegitables>")⟩

/-! ## The menu of the server process -/

/-- What a menu command puts on the terminal: a table rendered by `tablewriter` (its
header and its rows), or one line printed with `fmt.Println`. -/
inductive Display where
  | table (header : List String) (rows : List (List String))
  | line (text : String)
  deriving DecidableEq, Repr

/-- The function `showVegitable` of `server.go`, which `StartMenu` registers for the menu
command `show`. Its returned error is always nil; the result here is what it displays, and
`none` when it stops with an index out of range. -/
def showVegitable (s : State) (args : List String) : Option Display :=
  match args[0]? with
  | none => none
  | some a0 =>
    if a0 = "vegitable" then
      match args[1]? with
      | none => none
      | some a1 =>
        if a1 = "all" then
          some (.table ["Vegitable Name", "Unit Price", "Stocks(KG)"]
            (s.vegitables.Vegitables.map (fun v => [v.Name, v.PricePerKg, v.RemainingKgs])))
        else
          match rangeFind a1 s.vegitables.Vegitables with
          | some v =>
            some (.table ["Vegitable Name", "Unit Price", "Stocks(KG)"]
              [[v.Name, v.PricePerKg, v.RemainingKgs]])
          | none => some (.line ("Vegitable '" ++ a1 ++ "' is not found!"))
    else if a0 = "price" then
      match args[1]? with
      | none => none
      | some a1 =>
        match rangeFind a1 s.vegitables.Vegitables with
        | some v => some (.table ["Vegitable Name", "Unit Price"] [[v.Name, v.PricePerKg]])
        | none => some (.line ("Vegitable '" ++ a1 ++ "' is not found!"))
    else
      match args[1]? with
      | none => none
      | some a1 =>
        if a1 = "stocks" then
          match rangeFind a1 s.vegitables.Vegitables with
          | some v => some (.table ["Vegitable Name", "Stocks(KG)"] [[v.Name, v.RemainingKgs]])
          | none => some (.line ("Vegitable '" ++ a1 ++ "' is not found!"))
        else
          some (.line ("Unknown command format: " ++ a0 ++ " " ++ a1))

/-- An add followed by an update that replaces the price `2.50` by the shorter `3`. -/
def shorteningCalls : List Call :=
  [ .cadd ⟨["vegitable", "carrot", "2.50", "100"]⟩,
    .cupdate ⟨["price", "carrot", "3"]⟩ ]

/-- The state the calls `shorteningCalls` end in when they start from the empty store with
no snapshot file. -/
def shorteningEnd : State :=
  ⟨⟨XmlName.zero, [⟨XmlName.zero, "carrot", "3", "100"⟩]⟩, false,
    utf8Bytes ("<vegitables><vegitable><name>carrot</name><pricePerKg>3</pricePerKg>"
      ++ "<remainingKgs>100</remainingKgs></vegitable></vegitables>" ++ "es>")⟩

end GoRpc

namespace GoRpc

/-! ## Lemmas on the two loops -/

theorem rangeFind_eq_none {n : String} {vs : List Vegitable} :
    rangeFind n vs = none ↔ ∀ v ∈ vs, v.Name ≠ n := by
  simp [rangeFind, List.find?_eq_none]

theorem rangeFind_some {n : String} {vs : List Vegitable} {v : Vegitable}
    (h : rangeFind n vs = some v) : v ∈ vs ∧ v.Name = n := by
  unfold rangeFind at h
  exact ⟨List.mem_of_find?_eq_some h, by simpa using List.find?_some h⟩

theorem rangeFind_isSome_of_mem {n : String} {vs : List Vegitable}
    (h : ∃ v ∈ vs, v.Name = n) : ∃ v, rangeFind n vs = some v ∧ v.Name = n := by
  cases hf : rangeFind n vs with
  | none =>
    obtain ⟨v, hv, hn⟩ := h
    exact absurd hn (rangeFind_eq_none.mp hf v hv)
  | some v => exact ⟨v, rfl, (rangeFind_some hf).2⟩

theorem indexFind_eq_none {n : String} {vs : List Vegitable} :
    indexFind n vs = none ↔ ∀ v ∈ vs, v.Name ≠ n := by
  induction vs with
  | nil => simp [indexFind]
  | cons x xs ih =>
    by_cases hx : x.Name = n
    · simp [indexFind, hx]
    · simp [indexFind, hx, ih]

theorem indexFind_some {n : String} {vs : List Vegitable} {i : Nat}
    (h : indexFind n vs = some i) :
    ∃ pre r post, vs = pre ++ r :: post ∧ pre.length = i ∧ r.Name = n ∧
      ∀ x ∈ pre, x.Name ≠ n := by
  induction vs generalizing i with
  | nil => simp [indexFind] at h
  | cons x xs ih =>
    by_cases hx : x.Name = n
    · simp [indexFind, hx] at h
      exact ⟨[], x, xs, by simp, by simp [h], hx, by simp⟩
    · simp [indexFind, hx] at h
      obtain ⟨j, hj, rfl⟩ := h
      obtain ⟨pre, r, post, rfl, hlen, hr, hpre⟩ := ih hj
      refine ⟨x :: pre, r, post, by simp, by simp [hlen], hr, ?_⟩
      intro y hy
      rcases List.mem_cons.mp hy with rfl | hy
      · exact hx
      · exact hpre y hy

theorem indexFind_isSome_of_mem {n : String} {vs : List Vegitable}
    (h : ∃ v ∈ vs, v.Name = n) : ∃ i, indexFind n vs = some i := by
  cases hf : indexFind n vs with
  | none =>
    obtain ⟨v, hv, hn⟩ := h
    exact absurd hn (indexFind_eq_none.mp hf v hv)
  | some i => exact ⟨i, rfl⟩

theorem modify_append_cons {α : Type} (f : α → α) (pre : List α) (r : α) (post : List α) :
    (pre ++ r :: post).modify f pre.length = pre ++ f r :: post := by
  induction pre with
  | nil => simp
  | cons x xs ih => simpa using ih

/-! ## Lemmas on the messages -/

theorem exists_message_ne_busy (t : String) :
    "Cannot add the vegitable! Vegitable '" ++ t ≠ busyMessage := by
  intro h
  have := congrArg (fun x => x.data.head?) h
  simp [busyMessage] at this

theorem missing_message_ne_busy (t : String) :
    "Vegitable '" ++ t ≠ busyMessage := by
  intro h
  have := congrArg (fun x => x.data.head?) h
  simp [busyMessage] at this

/-! ## Lemmas on `writeToDB` -/

@[simp] theorem writeToDB_vegitables (s : State) : (writeToDB s).vegitables = s.vegitables := rfl

@[simp] theorem writeToDB_serverBusy (s : State) : (writeToDB s).serverBusy = s.serverBusy := rfl

/-! ## The add command -/

/-- C2: when the store has a record named `n`, `add vegitable n p k` returns, with no
error, `Ok = false` and a message that contains "already exists" and is not the busy
message, whether the flag is held or free; the state (records, flag, file) is the one
before the call. -/
theorem add_duplicate_rejected (s : State) (res : Response) (n p k : String)
    (h : hasName s n) :
    ∃ out, CaddVegitable s ⟨["vegitable", n, p, k]⟩ res = some out ∧ out.err = none ∧
      out.res.Ok = false ∧
      out.res.Message = "Cannot add the vegitable! Vegitable '" ++ n ++ "' already exists!" ∧
      (∃ a b, out.res.Message = a ++ "already exists" ++ b) ∧
      out.res.Message ≠ busyMessage ∧
      out.srv = s := by
  obtain ⟨v, hv, hvn⟩ := rangeFind_isSome_of_mem h
  have heq : CaddVegitable s ⟨["vegitable", n, p, k]⟩ res =
      some ⟨none, { res with Message := "Cannot add the vegitable! Vegitable '" ++ n
                      ++ "' already exists!", Ok := false }, s⟩ := by
    simp [CaddVegitable, hv, hvn]
  refine ⟨_, heq, rfl, rfl, rfl, ?_, ?_, rfl⟩
  · refine ⟨"Cannot add the vegitable! Vegitable '" ++ n ++ "' ", "!", ?_⟩
    simp only [String.append_assoc]
    rfl
  · simp only [String.append_assoc]
    exact exists_message_ne_busy _

/-- Scenario 2 of the specification, with the flag held: `add vegitable carrot 3.00 50`
on the store with `carrot`. -/
theorem add_duplicate_rejected_witness :
    hasName carrotStoreBusy "carrot" ∧
    ∃ out, CaddVegitable carrotStoreBusy ⟨["vegitable", "carrot", "3.00", "50"]⟩ Response.zero
        = some out ∧ out.err = none ∧ out.res.Ok = false ∧
      out.res.Message
        = "Cannot add the vegitable! Vegitable '" ++ "carrot" ++ "' already exists!" ∧
      (∃ a b, out.res.Message = a ++ "already exists" ++ b) ∧
      out.res.Message ≠ busyMessage ∧
      out.srv = carrotStoreBusy :=
  ⟨by decide, add_duplicate_rejected carrotStoreBusy Response.zero "carrot" "3.00" "50"
    (by decide)⟩

/-- C3: when the store has no record named `n` and the flag is free,
`add vegitable n p k` returns, with no error, `Ok = true`, and the records afterwards are
the old records, unchanged and in their order, followed by the one new record with name
`n`, price `p` and stock `k`; there is one record more, the flag is free again, and from
the empty store the result is the one-record store. -/
theorem add_new_appends (s : State) (res : Response) (n p k : String)
    (hn : ¬ hasName s n) (hb : s.serverBusy = false) :
    ∃ out, CaddVegitable s ⟨["vegitable", n, p, k]⟩ res = some out ∧ out.err = none ∧
      out.res.Ok = true ∧
      out.srv.vegitables.Vegitables
        = s.vegitables.Vegitables ++ [⟨XmlName.zero, n, p, k⟩] ∧
      out.srv.vegitables.Vegitables.length = s.vegitables.Vegitables.length + 1 ∧
      out.srv.vegitables.XMLName = s.vegitables.XMLName ∧
      out.srv.serverBusy = false ∧
      (s.vegitables.Vegitables = [] →
        out.srv.vegitables.Vegitables = [⟨XmlName.zero, n, p, k⟩]) := by
  have hf : rangeFind n s.vegitables.Vegitables = none :=
    rangeFind_eq_none.mpr (fun v hv hvn => hn ⟨v, hv, hvn⟩)
  have heq : CaddVegitable s ⟨["vegitable", n, p, k]⟩ res =
      some ⟨none, { res with Message := "Vegitable '" ++ n ++ "' is added successfully!",
                             Ok := true },
        { writeToDB { s with serverBusy := true, vegitables := { s.vegitables with
            Vegitables := s.vegitables.Vegitables ++ [⟨XmlName.zero, n, p, k⟩] } } with
          serverBusy := false }⟩ := by
    simp [CaddVegitable, hf, hb]
  refine ⟨_, heq, rfl, rfl, rfl, by simp, rfl, rfl, ?_⟩
  intro h
  simp [h]

/-- Scenario 1 of the specification: `add vegitable carrot 2.50 100` on the empty store
gives the one-record store. -/
theorem add_new_appends_witness :
    ¬ hasName emptyStore "carrot" ∧ emptyStore.serverBusy = false ∧
    ∃ out, CaddVegitable emptyStore ⟨["vegitable", "carrot", "2.50", "100"]⟩ Response.zero
        = some out ∧ out.err = none ∧ out.res.Ok = true ∧
      out.srv.vegitables.Vegitables = [⟨XmlName.zero, "carrot", "2.50", "100"⟩] ∧
      out.srv.vegitables.Vegitables.length = 1 ∧
      out.srv.serverBusy = false :=
  match add_new_appends emptyStore Response.zero "carrot" "2.50" "100" (by decide) rfl with
  | ⟨out, h1, h2, h3, _, h5, _, h7, h8⟩ => ⟨by decide, rfl, out, h1, h2, h3, h8 rfl, h5, h7⟩

/-- C8: for every list of arguments after the target `vegitable` whose length is not 3,
`CaddVegitable` returns, with no error, `Ok = false` and the arity message, and the state
(records, flag, file) is the one before the call; the flag, held or free, has no part in
the outcome. -/
theorem add_wrong_arity (s : State) (res : Response) (args : List String)
    (h : args.length ≠ 3) :
    CaddVegitable s ⟨"vegitable" :: args⟩ res =
      some ⟨none, { res with Message := "Invalid number of inputs for 'add vegitable' command!",
                             Ok := false }, s⟩ := by
  simp [CaddVegitable, h]

/-- Scenario 6 of the specification, with the flag held: `add vegitable onion 1.0`. -/
theorem add_wrong_arity_witness :
    ["onion", "1.0"].length ≠ 3 ∧
    CaddVegitable carrotStoreBusy ⟨"vegitable" :: ["onion", "1.0"]⟩ Response.zero =
      some ⟨none, { Response.zero with
        Message := "Invalid number of inputs for 'add vegitable' command!",
        Ok := false }, carrotStoreBusy⟩ :=
  ⟨by decide, add_wrong_arity carrotStoreBusy Response.zero ["onion", "1.0"] (by decide)⟩

/-! ## The update command -/

theorem getElem?_append_cons_length {α : Type} (pre : List α) (r : α) (post : List α) :
    (pre ++ r :: post)[pre.length]? = some r := by
  induction pre with
  | nil => simp
  | cons x xs ih => simpa using ih

theorem getElem_append_cons_length {α : Type} (pre : List α) (r : α) (post : List α)
    (h : pre.length < (pre ++ r :: post).length) : (pre ++ r :: post)[pre.length] = r := by
  have := getElem?_append_cons_length pre r post
  rw [List.getElem?_eq_getElem h] at this
  exact Option.some.inj this

theorem indexFind_append_cons (n : String) (pre post : List Vegitable) (r : Vegitable)
    (hr : r.Name = n) (hpre : ∀ x ∈ pre, x.Name ≠ n) :
    indexFind n (pre ++ r :: post) = some pre.length := by
  induction pre with
  | nil => simp [indexFind, hr]
  | cons x xs ih =>
    have hx : x.Name ≠ n := hpre x (by simp)
    simp [indexFind, hx, ih (fun y hy => hpre y (by simp [hy]))]

/-- The update of the price at the first record with the name, the flag being free. -/
theorem update_price_found (s : State) (res : Response) (n v : String)
    (pre post : List Vegitable) (r : Vegitable)
    (hvs : s.vegitables.Vegitables = pre ++ r :: post) (hr : r.Name = n)
    (hpre : ∀ x ∈ pre, x.Name ≠ n) (hb : s.serverBusy = false) :
    CupdateVegitable s ⟨["price", n, v]⟩ res =
      some ⟨none, { res with Message := "Vegitable '" ++ n ++ "' is updated successfully!",
                             Ok := true },
        { writeToDB { s with serverBusy := true, vegitables := { s.vegitables with
            Vegitables := pre ++ { r with PricePerKg := v } :: post } } with
          serverBusy := false }⟩ := by
  have hi := indexFind_append_cons n pre post r hr hpre
  simp [CupdateVegitable, updateLoop, hi, hb, setPricePerKg, nameAt, hvs, modify_append_cons,
    getElem?_append_cons_length, getElem_append_cons_length, hr]

/-- The update of the stock at the first record with the name, the flag being free. -/
theorem update_stocks_found (s : State) (res : Response) (n v : String)
    (pre post : List Vegitable) (r : Vegitable)
    (hvs : s.vegitables.Vegitables = pre ++ r :: post) (hr : r.Name = n)
    (hpre : ∀ x ∈ pre, x.Name ≠ n) (hb : s.serverBusy = false) :
    CupdateVegitable s ⟨["stocks", n, v]⟩ res =
      some ⟨none, { res with Message := "Vegitable '" ++ n ++ "' is updated successfully!",
                             Ok := true },
        { writeToDB { s with serverBusy := true, vegitables := { s.vegitables with
            Vegitables := pre ++ { r with RemainingKgs := v } :: post } } with
          serverBusy := false }⟩ := by
  have hi := indexFind_append_cons n pre post r hr hpre
  simp [CupdateVegitable, updateLoop, hi, hb, setRemainingKgs, nameAt, hvs, modify_append_cons,
    getElem?_append_cons_length, getElem_append_cons_length, hr]

/-- The update of a name the store does not have. -/
theorem update_missing (s : State) (res : Response) (c0 n v : String)
    (hc : c0 = "price" ∨ c0 = "stocks") (h : ¬ hasName s n) :
    CupdateVegitable s ⟨[c0, n, v]⟩ res =
      some ⟨none, { res with Message := "Vegitable '" ++ n ++ "' is not found!",
                             Ok := false }, s⟩ := by
  have hi : indexFind n s.vegitables.Vegitables = none :=
    indexFind_eq_none.mpr (fun x hx hxn => h ⟨x, hx, hxn⟩)
  rcases hc with rfl | rfl <;> simp [CupdateVegitable, updateLoop, hi]

/-- The update of a name the store has, the flag being held. -/
theorem update_busy (s : State) (res : Response) (c0 n v : String)
    (hc : c0 = "price" ∨ c0 = "stocks") (h : hasName s n) (hb : s.serverBusy = true) :
    CupdateVegitable s ⟨[c0, n, v]⟩ res =
      some ⟨none, { res with Message := busyMessage, Ok := false }, s⟩ := by
  obtain ⟨i, hi⟩ := indexFind_isSome_of_mem h
  rcases hc with rfl | rfl <;> simp [CupdateVegitable, updateLoop, hi, hb, busyMessage]

/-- C4: when the store has a record named `n` and the flag is free, `update price n v`
returns, with no error, `Ok = true`, and the records afterwards are the records before
with the price of the first record named `n` (the only one when the names are distinct)
set to `v`, its name and stock as they were; `update stocks n v` does the same for the
stock, leaving name and price. Every other record, the number of records and their order
are as before, and the flag is free again. -/
theorem update_sets_field (s : State) (res : Response) (n v : String)
    (h : hasName s n) (hb : s.serverBusy = false) :
    ∃ pre r post, s.vegitables.Vegitables = pre ++ r :: post ∧ r.Name = n ∧
      (∀ x ∈ pre, x.Name ≠ n) ∧ ((names s).Nodup → ∀ x ∈ post, x.Name ≠ n) ∧
      (∃ out, CupdateVegitable s ⟨["price", n, v]⟩ res = some out ∧ out.err = none ∧
        out.res.Ok = true ∧
        out.srv.vegitables.Vegitables
          = pre ++ ⟨r.XMLName, r.Name, v, r.RemainingKgs⟩ :: post ∧
        out.srv.vegitables.Vegitables.length = s.vegitables.Vegitables.length ∧
        out.srv.serverBusy = false) ∧
      (∃ out, CupdateVegitable s ⟨["stocks", n, v]⟩ res = some out ∧ out.err = none ∧
        out.res.Ok = true ∧
        out.srv.vegitables.Vegitables
          = pre ++ ⟨r.XMLName, r.Name, r.PricePerKg, v⟩ :: post ∧
        out.srv.vegitables.Vegitables.length = s.vegitables.Vegitables.length ∧
        out.srv.serverBusy = false) := by
  obtain ⟨i, hi⟩ := indexFind_isSome_of_mem h
  obtain ⟨pre, r, post, hvs, -, hr, hpre⟩ := indexFind_some hi
  refine ⟨pre, r, post, hvs, hr, hpre, ?_, ?_, ?_⟩
  · intro hnd x hx hxn
    have hnd2 : (pre.map (·.Name) ++ r.Name :: post.map (·.Name)).Nodup := by
      simpa [names, hvs] using hnd
    have h3 := (List.nodup_cons.mp (List.nodup_append.mp hnd2).2.1).1
    exact h3 (List.mem_map.mpr ⟨x, hx, by rw [hxn, hr]⟩)
  · exact ⟨_, update_price_found s res n v pre post r hvs hr hpre hb, rfl, rfl, rfl,
      by simp [hvs], rfl⟩
  · exact ⟨_, update_stocks_found s res n v pre post r hvs hr hpre hb, rfl, rfl, rfl,
      by simp [hvs], rfl⟩

/-- Scenario 3 of the specification: `update price carrot 3.00`, and the same for the
stock, on the store with `carrot`. -/
theorem update_sets_field_witness :
    hasName carrotStore "carrot" ∧ carrotStore.serverBusy = false ∧
    ∃ pre r post, carrotStore.vegitables.Vegitables = pre ++ r :: post ∧ r.Name = "carrot" ∧
      (∀ x ∈ pre, x.Name ≠ "carrot") ∧ (∀ x ∈ post, x.Name ≠ "carrot") ∧
      (∃ out, CupdateVegitable carrotStore ⟨["price", "carrot", "3.00"]⟩ Response.zero
          = some out ∧ out.err = none ∧ out.res.Ok = true ∧
        out.srv.vegitables.Vegitables
          = pre ++ ⟨r.XMLName, r.Name, "3.00", r.RemainingKgs⟩ :: post ∧
        out.srv.vegitables.Vegitables.length = carrotStore.vegitables.Vegitables.length ∧
        out.srv.serverBusy = false) ∧
      (∃ out, CupdateVegitable carrotStore ⟨["stocks", "carrot", "3.00"]⟩ Response.zero
          = some out ∧ out.err = none ∧ out.res.Ok = true ∧
        out.srv.vegitables.Vegitables
          = pre ++ ⟨r.XMLName, r.Name, r.PricePerKg, "3.00"⟩ :: post ∧
        out.srv.vegitables.Vegitables.length = carrotStore.vegitables.Vegitables.length ∧
        out.srv.serverBusy = false) :=
  match update_sets_field carrotStore Response.zero "carrot" "3.00" (by decide) rfl with
  | ⟨pre, r, post, h1, h2, h3, h4, h5, h6⟩ =>
    ⟨by decide, rfl, pre, r, post, h1, h2, h3, h4 (by decide), h5, h6⟩

/-- C5: when the store has no record named `n` (the empty store included),
`update price n v` and `update stocks n v` return, with no error, `Ok = false` and a
message that contains "not found" and is not the busy message, whether the flag is held
or free; the state (records, flag, file) is the one before the call. -/
theorem update_missing_not_found (s : State) (res : Response) (n v : String)
    (h : ¬ hasName s n) :
    (∃ out, CupdateVegitable s ⟨["price", n, v]⟩ res = some out ∧ out.err = none ∧
      out.res.Ok = false ∧ (∃ a b, out.res.Message = a ++ "not found" ++ b) ∧
      out.res.Message ≠ busyMessage ∧ out.srv = s) ∧
    (∃ out, CupdateVegitable s ⟨["stocks", n, v]⟩ res = some out ∧ out.err = none ∧
      out.res.Ok = false ∧ (∃ a b, out.res.Message = a ++ "not found" ++ b) ∧
      out.res.Message ≠ busyMessage ∧ out.srv = s) := by
  have hmsg : ∃ a b, "Vegitable '" ++ n ++ "' is not found!" = a ++ "not found" ++ b := by
    refine ⟨"Vegitable '" ++ n ++ "' is ", "!", ?_⟩
    simp only [String.append_assoc]
    rfl
  have hne : "Vegitable '" ++ n ++ "' is not found!" ≠ busyMessage := by
    simp only [String.append_assoc]
    exact missing_message_ne_busy _
  exact ⟨⟨_, update_missing s res "price" n v (Or.inl rfl) h, rfl, rfl, hmsg, hne, rfl⟩,
    ⟨_, update_missing s res "stocks" n v (Or.inr rfl) h, rfl, rfl, hmsg, hne, rfl⟩⟩

/-- Scenario 4 of the specification, with the flag held: updates of `kale` on the empty
store. -/
theorem update_missing_not_found_witness :
    ¬ hasName { emptyStore with serverBusy := true } "kale" ∧
    (∃ out, CupdateVegitable { emptyStore with serverBusy := true } ⟨["price", "kale", "10"]⟩
        Response.zero = some out ∧ out.err = none ∧
      out.res.Ok = false ∧ (∃ a b, out.res.Message = a ++ "not found" ++ b) ∧
      out.res.Message ≠ busyMessage ∧ out.srv = { emptyStore with serverBusy := true }) ∧
    (∃ out, CupdateVegitable { emptyStore with serverBusy := true } ⟨["stocks", "kale", "10"]⟩
        Response.zero = some out ∧ out.err = none ∧
      out.res.Ok = false ∧ (∃ a b, out.res.Message = a ++ "not found" ++ b) ∧
      out.res.Message ≠ busyMessage ∧ out.srv = { emptyStore with serverBusy := true }) :=
  ⟨by decide, update_missing_not_found { emptyStore with serverBusy := true } Response.zero
    "kale" "10" (by decide)⟩

/-! ## The show command -/

/-- C6: for every store, with the flag held or free, `show vegitable all` returns, with no
error, `Ok = true` and the whole store as the records of the response: the same records,
as many, in the order of the store; the state is the one before the call. -/
theorem show_all_returns_store (s : State) (res : Response) :
    ∃ out, CshowVegitable s ⟨["vegitable", "all"]⟩ res = some out ∧ out.err = none ∧
      out.res.Ok = true ∧ out.res.Vegitables = s.vegitables ∧
      out.res.Vegitables.Vegitables = s.vegitables.Vegitables ∧
      out.res.Vegitables.Vegitables.length = s.vegitables.Vegitables.length ∧
      out.srv = s := by
  have heq : CshowVegitable s ⟨["vegitable", "all"]⟩ res =
      some ⟨none, { res with Message := "Command executed successfully!", Ok := true,
                             Vegitables := s.vegitables }, s⟩ := by
    simp [CshowVegitable]
  exact ⟨_, heq, rfl, rfl, rfl, rfl, rfl, rfl⟩

/-! ## The busy flag -/

/-- C7: when the flag is held on entry, an add of a name `n` the store does not have
(target `vegitable`, three arguments; the empty store included) returns, with no error,
`Ok = false` and the busy message, and so does an update of the price or of the stock of
a name `m` the store has (two arguments); in each case the state is the one before the
call, so no record is changed and the flag is still held. The add needs nothing of `m`
and the updates nothing of `n`. -/
theorem busy_rejects_mutation (s : State) (res : Response) (n m p k v : String)
    (hb : s.serverBusy = true) :
    (¬ hasName s n →
      ∃ out, CaddVegitable s ⟨["vegitable", n, p, k]⟩ res = some out ∧ out.err = none ∧
        out.res.Ok = false ∧ out.res.Message = "Server is busy! Please try again later!" ∧
        out.srv = s ∧ out.srv.serverBusy = true) ∧
    (hasName s m →
      (∃ out, CupdateVegitable s ⟨["price", m, v]⟩ res = some out ∧ out.err = none ∧
        out.res.Ok = false ∧ out.res.Message = "Server is busy! Please try again later!" ∧
        out.srv = s ∧ out.srv.serverBusy = true) ∧
      (∃ out, CupdateVegitable s ⟨["stocks", m, v]⟩ res = some out ∧ out.err = none ∧
        out.res.Ok = false ∧ out.res.Message = "Server is busy! Please try again later!" ∧
        out.srv = s ∧ out.srv.serverBusy = true)) := by
  refine ⟨?_, ?_⟩
  · intro hn
    have hf : rangeFind n s.vegitables.Vegitables = none :=
      rangeFind_eq_none.mpr (fun x hx hxn => hn ⟨x, hx, hxn⟩)
    have hadd : CaddVegitable s ⟨["vegitable", n, p, k]⟩ res =
        some ⟨none, { res with Message := busyMessage, Ok := false }, s⟩ := by
      simp [CaddVegitable, hf, hb, busyMessage]
    exact ⟨_, hadd, rfl, rfl, rfl, rfl, hb⟩
  · intro hm
    exact ⟨⟨_, update_busy s res "price" m v (Or.inl rfl) hm hb, rfl, rfl, rfl, rfl, hb⟩,
      ⟨_, update_busy s res "stocks" m v (Or.inr rfl) hm hb, rfl, rfl, rfl, rfl, hb⟩⟩

/-- The flag held: an add of `carrot` on the empty store, and on the store with `carrot`
an add of `onion` and updates of `carrot`. -/
theorem busy_rejects_mutation_witness :
    ({ emptyStore with serverBusy := true } : State).serverBusy = true ∧
    ¬ hasName { emptyStore with serverBusy := true } "carrot" ∧
    (∃ out, CaddVegitable { emptyStore with serverBusy := true }
        ⟨["vegitable", "carrot", "2.50", "100"]⟩ Response.zero = some out ∧ out.err = none ∧
      out.res.Ok = false ∧ out.res.Message = "Server is busy! Please try again later!" ∧
      out.srv = { emptyStore with serverBusy := true } ∧ out.srv.serverBusy = true) ∧
    carrotStoreBusy.serverBusy = true ∧ ¬ hasName carrotStoreBusy "onion" ∧
    hasName carrotStoreBusy "carrot" ∧
    (∃ out, CaddVegitable carrotStoreBusy ⟨["vegitable", "onion", "1.0", "5"]⟩ Response.zero
        = some out ∧ out.err = none ∧
      out.res.Ok = false ∧ out.res.Message = "Server is busy! Please try again later!" ∧
      out.srv = carrotStoreBusy ∧ out.srv.serverBusy = true) ∧
    (∃ out, CupdateVegitable carrotStoreBusy ⟨["price", "carrot", "3.00"]⟩ Response.zero
        = some out ∧ out.err = none ∧
      out.res.Ok = false ∧ out.res.Message = "Server is busy! Please try again later!" ∧
      out.srv = carrotStoreBusy ∧ out.srv.serverBusy = true) ∧
    (∃ out, CupdateVegitable carrotStoreBusy ⟨["stocks", "carrot", "3.00"]⟩ Response.zero
        = some out ∧ out.err = none ∧
      out.res.Ok = false ∧ out.res.Message = "Server is busy! Please try again later!" ∧
      out.srv = carrotStoreBusy ∧ out.srv.serverBusy = true) :=
  have he := busy_rejects_mutation { emptyStore with serverBusy := true } Response.zero
    "carrot" "carrot" "2.50" "100" "3.00" rfl
  have hc := busy_rejects_mutation carrotStoreBusy Response.zero
    "onion" "carrot" "1.0" "5" "3.00" rfl
  ⟨rfl, by decide, he.1 (by decide), rfl, by decide, by decide, hc.1 (by decide),
    (hc.2 (by decide)).1, (hc.2 (by decide)).2⟩

/-! ## The effect of one call on the records -/

theorem map_modify_of_invariant {α β : Type} (g : α → β) (f : α → α) (hf : ∀ a, g (f a) = g a)
    (l : List α) (i : Nat) : (l.modify f i).map g = l.map g := by
  induction l generalizing i with
  | nil => cases i <;> simp
  | cons x xs ih =>
    cases i with
    | zero => simp [hf]
    | succ j => simp [ih]

/-- A call of `CshowVegitable` that returns leaves the state as it was. -/
theorem CshowVegitable_srv {s : State} {req : Request} {res : Response} {out : Return}
    (h : CshowVegitable s req res = some out) : out.srv = s := by
  unfold CshowVegitable at h
  repeat' split at h
  all_goals first
    | (cases h; done)
    | (cases h; rfl)

/-- A call of `CaddVegitable` that returns either leaves the state as it was, or appends
one record whose name the store did not have and which is the second token. -/
theorem CaddVegitable_srv {s : State} {req : Request} {res : Response} {out : Return}
    (h : CaddVegitable s req res = some out) :
    out.srv = s ∨
      ∃ c1 c2 c3, req.Command[1]? = some c1 ∧ ¬ hasName s c1 ∧
        out.srv.vegitables.Vegitables = s.vegitables.Vegitables ++ [⟨XmlName.zero, c1, c2, c3⟩] := by
  unfold CaddVegitable at h
  repeat' split at h
  all_goals first
    | (cases h; done)
    | (cases h; exact Or.inl rfl)
    | skip
  rename_i c1 c2 c3 h1 h2 h3 _ hf hb
  cases h
  refine Or.inr ⟨c1, c2, c3, h1, ?_, rfl⟩
  rintro ⟨v, hv, hvn⟩
  exact rangeFind_eq_none.mp hf v hv hvn

/-- A call of `CupdateVegitable` that returns leaves the names of the records as they
were. -/
theorem CupdateVegitable_names {s : State} {req : Request} {res : Response} {out : Return}
    (h : CupdateVegitable s req res = some out) : names out.srv = names s := by
  unfold CupdateVegitable updateLoop at h
  repeat' split at h
  all_goals first
    | (cases h; done)
    | (cases h; rfl)
    | (dsimp only at h
       split at h
       · cases h
       · cases h
         simp only [names, setPricePerKg, setRemainingKgs, writeToDB]
         apply map_modify_of_invariant
         intro a
         rfl)

/-- One call that returns keeps the names of the records pairwise distinct. -/
theorem exec_names_nodup {s : State} {c : Call} {out : Return}
    (h : c.exec s = some out) (h0 : (names s).Nodup) : (names out.srv).Nodup := by
  cases c with
  | cshow req => rw [CshowVegitable_srv h]; exact h0
  | cupdate req => rw [CupdateVegitable_names h]; exact h0
  | cadd req =>
    rcases CaddVegitable_srv h with he | ⟨c1, c2, c3, -, hn, he⟩
    · rw [he]; exact h0
    · have hnames : names out.srv = names s ++ [c1] := by simp [names, he]
      rw [hnames]
      refine List.nodup_append.mpr ⟨h0, List.nodup_singleton _, ?_⟩
      intro x hx hx1
      obtain ⟨v, hv, hvn⟩ := List.mem_map.mp hx
      exact hn ⟨v, hv, by rw [hvn, List.mem_singleton.mp hx1]⟩

/-! ## Invariants of the store -/

/-- C1: from a store whose record names are pairwise distinct, after every finite
sequence of `CshowVegitable`, `CaddVegitable` and `CupdateVegitable` calls that return,
whatever token sequences they carry, the record names are pairwise distinct. -/
theorem names_nodup_preserved (s : State) (calls : List Call) (s' : State)
    (h0 : (names s).Nodup) (hrun : runCalls s calls = some s') : (names s').Nodup := by
  induction calls generalizing s with
  | nil =>
    simp only [runCalls, Option.some.injEq] at hrun
    rw [← hrun]; exact h0
  | cons c cs ih =>
    simp only [runCalls] at hrun
    split at hrun
    · cases hrun
    · rename_i out hout
      exact ih out.srv (exec_names_nodup hout h0) hrun

/-- A session from the empty store, with a repeated add, ends with distinct names. -/
theorem names_nodup_preserved_witness :
    (names emptyStore).Nodup ∧ runCalls emptyStore sessionCalls = some sessionEnd ∧
      names sessionEnd = ["carrot", "onion"] ∧ (names sessionEnd).Nodup :=
  ⟨by decide, by rfl, by decide,
    names_nodup_preserved emptyStore sessionCalls sessionEnd (by decide) (by rfl)⟩

/-- One call that returns keeps the empty string out of the names, unless it is an add
whose name token is the empty string. -/
theorem exec_names_nonempty {s : State} {c : Call} {out : Return}
    (h : c.exec s = some out) (h0 : "" ∉ names s)
    (hc : ∀ req, c = Call.cadd req → req.Command[1]? ≠ some "") : "" ∉ names out.srv := by
  cases c with
  | cshow req => rw [CshowVegitable_srv h]; exact h0
  | cupdate req => rw [CupdateVegitable_names h]; exact h0
  | cadd req =>
    rcases CaddVegitable_srv h with he | ⟨c1, c2, c3, h1, -, he⟩
    · rw [he]; exact h0
    · have hnames : names out.srv = names s ++ [c1] := by simp [names, he]
      rw [hnames]
      intro hmem
      rcases List.mem_append.mp hmem with hm | hm
      · exact h0 hm
      · have : c1 = "" := (List.mem_singleton.mp hm).symm
        exact hc req rfl (by rw [h1, this])

/-- C10, as the code has it: from a store in which every name is non-empty, after every
finite sequence of calls that return in which no add carries the empty string as its name
token (the second token), no record has the empty string as its name. -/
theorem names_nonempty_preserved (s : State) (calls : List Call) (s' : State)
    (h0 : ∀ v ∈ s.vegitables.Vegitables, v.Name ≠ "")
    (hc : ∀ req, Call.cadd req ∈ calls → req.Command[1]? ≠ some "")
    (hrun : runCalls s calls = some s') :
    ∀ v ∈ s'.vegitables.Vegitables, v.Name ≠ "" := by
  have key : ∀ (calls : List Call) (s : State), "" ∉ names s →
      (∀ req, Call.cadd req ∈ calls → req.Command[1]? ≠ some "") →
      runCalls s calls = some s' → "" ∉ names s' := by
    intro calls
    induction calls with
    | nil =>
      intro s h0 _ hrun
      simp only [runCalls, Option.some.injEq] at hrun
      rw [← hrun]; exact h0
    | cons c cs ih =>
      intro s h0 hc hrun
      simp only [runCalls] at hrun
      split at hrun
      · cases hrun
      · rename_i out hout
        refine ih out.srv (exec_names_nonempty hout h0 ?_) ?_ hrun
        · intro req hreq
          exact hc req (by simp [hreq])
        · intro req hreq
          exact hc req (List.mem_cons_of_mem _ hreq)
  have hs : "" ∉ names s := by
    intro hm
    obtain ⟨v, hv, hvn⟩ := List.mem_map.mp hm
    exact h0 v hv hvn
  intro v hv hvn
  exact key calls s hs hc hrun (List.mem_map.mpr ⟨v, hv, hvn⟩)

/-- A session from the empty store whose adds all carry a name ends with non-empty
names. -/
theorem names_nonempty_preserved_witness :
    (∀ v ∈ emptyStore.vegitables.Vegitables, v.Name ≠ "") ∧
    (∀ req, Call.cadd req ∈ sessionCalls → req.Command[1]? ≠ some "") ∧
    runCalls emptyStore sessionCalls = some sessionEnd ∧
    ∀ v ∈ sessionEnd.vegitables.Vegitables, v.Name ≠ "" :=
  have hc : ∀ req, Call.cadd req ∈ sessionCalls → req.Command[1]? ≠ some "" := by
    intro req hreq
    simp [sessionCalls] at hreq
    rcases hreq with rfl | rfl | rfl <;> decide
  ⟨by decide, hc, by rfl,
    names_nonempty_preserved emptyStore sessionCalls sessionEnd (by decide) hc (by rfl)⟩

/-- C10 fails as stated: the line `add vegitable  1.0 5` (two spaces) is cut by the menu
into tokens with an empty one; the menu hands `cmd[1:]` to the add command, and
`CaddVegitable` on the empty store stores a record whose name is the empty string. -/
theorem empty_name_is_added :
    cleanCommand "add vegitable  1.0 5\n" = ["add", "vegitable", "", "1.0", "5"] ∧
    (∀ v ∈ emptyStore.vegitables.Vegitables, v.Name ≠ "") ∧
    ∃ s', runCalls emptyStore [Call.cadd ⟨(cleanCommand "add vegitable  1.0 5\n").tail⟩]
        = some s' ∧
      s'.vegitables.Vegitables = [⟨XmlName.zero, "", "1.0", "5"⟩] ∧
      ∃ v ∈ s'.vegitables.Vegitables, v.Name = "" :=
  ⟨by decide, by decide,
    ⟨(writeToDB ⟨⟨XmlName.zero, [⟨XmlName.zero, "", "1.0", "5"⟩]⟩, false, []⟩),
      by rfl, rfl, ⟨⟨XmlName.zero, "", "1.0", "5"⟩, by simp, rfl⟩⟩⟩

/-! ## Responses to arbitrary token sequences -/

/-- With a first token that is not the empty string, `CaddVegitable` returns with no
error. -/
theorem CaddVegitable_returns (s : State) (res : Response) (c0 : String)
    (rest : List String) (h0 : c0 ≠ "") :
    ∃ out, CaddVegitable s ⟨c0 :: rest⟩ res = some out ∧ out.err = none := by
  by_cases hv : c0 = "vegitable"
  · by_cases hl : rest.length = 3
    · obtain ⟨n, p, k, rfl⟩ := List.length_eq_three.mp hl
      subst hv
      cases hf : rangeFind n s.vegitables.Vegitables with
      | some v => simp [CaddVegitable, hf]
      | none =>
        cases hb : s.serverBusy with
        | true => simp [CaddVegitable, hf, hb]
        | false => simp [CaddVegitable, hf, hb]
    · simp [CaddVegitable, hv, hl]
  · simp [CaddVegitable, h0, hv]

/-- With a first token that is not the empty string, `CupdateVegitable` returns with no
error. -/
theorem CupdateVegitable_returns (s : State) (res : Response) (c0 : String)
    (rest : List String) (h0 : c0 ≠ "") :
    ∃ out, CupdateVegitable s ⟨c0 :: rest⟩ res = some out ∧ out.err = none := by
  by_cases hc : c0 = "price" ∨ c0 = "stocks"
  · by_cases hl : rest.length = 2
    · obtain ⟨n, v, rfl⟩ := List.length_eq_two.mp hl
      by_cases hn : hasName s n
      · cases hb : s.serverBusy with
        | true => exact ⟨_, update_busy s res c0 n v hc hn hb, rfl⟩
        | false =>
          obtain ⟨i, hi⟩ := indexFind_isSome_of_mem hn
          obtain ⟨pre, r, post, hvs, -, hr, hpre⟩ := indexFind_some hi
          rcases hc with rfl | rfl
          · exact ⟨_, update_price_found s res n v pre post r hvs hr hpre hb, rfl⟩
          · exact ⟨_, update_stocks_found s res n v pre post r hvs hr hpre hb, rfl⟩
      · exact ⟨_, update_missing s res c0 n v hc hn, rfl⟩
    · rcases hc with rfl | rfl
      · simp [CupdateVegitable, hl]
      · simp [CupdateVegitable, hl]
  · have h1 : c0 ≠ "price" := fun h => hc (Or.inl h)
    have h2 : c0 ≠ "stocks" := fun h => hc (Or.inr h)
    simp [CupdateVegitable, h0, h1, h2]

/-- With a first token that is not the empty string and a second token,
`CshowVegitable` returns with no error. -/
theorem CshowVegitable_returns (s : State) (res : Response) (c0 c1 : String)
    (more : List String) (h0 : c0 ≠ "") :
    ∃ out, CshowVegitable s ⟨c0 :: c1 :: more⟩ res = some out ∧ out.err = none := by
  by_cases hv : c0 = "vegitable"
  · subst hv
    by_cases ha : c1 = "all"
    · simp [CshowVegitable, ha]
    · cases hf : rangeFind c1 s.vegitables.Vegitables with
      | some v => simp [CshowVegitable, ha, hf]
      | none => simp [CshowVegitable, ha, hf]
  · by_cases hc : c0 = "price" ∨ c0 = "stocks"
    · cases hf : rangeFind c1 s.vegitables.Vegitables with
      | some v => simp [CshowVegitable, h0, hv, hc, hf]
      | none => simp [CshowVegitable, h0, hv, hc, hf]
    · simp [CshowVegitable, h0, hv, hc]

/-- C9, as the code has it: for a token sequence whose first token is there and is not
the empty string (and, for `CshowVegitable`, whose second token is there), each of the
three handlers returns a response with a nil error; an unknown target gives `Ok = false`
with a message that carries the offending tokens and leaves the state as it was. A first
token that is the empty string is answered with the error "Command shoud be specified!"
and an untouched response. -/
theorem handlers_respond (s : State) (res : Response) (c0 c1 : String)
    (rest more : List String) (h0 : c0 ≠ "") :
    (∃ out, CaddVegitable s ⟨c0 :: rest⟩ res = some out ∧ out.err = none) ∧
    (∃ out, CupdateVegitable s ⟨c0 :: rest⟩ res = some out ∧ out.err = none) ∧
    (∃ out, CshowVegitable s ⟨c0 :: c1 :: more⟩ res = some out ∧ out.err = none) ∧
    (c0 ≠ "vegitable" →
      CaddVegitable s ⟨c0 :: rest⟩ res =
        some ⟨none, { res with Message := "Unknown command format: 'add " ++ c0 ++ "'",
                               Ok := false }, s⟩) ∧
    (c0 ≠ "price" → c0 ≠ "stocks" →
      CupdateVegitable s ⟨c0 :: rest⟩ res =
        some ⟨none, { res with Message := "Unknown command format: 'add " ++ c0 ++ "'",
                               Ok := false }, s⟩) ∧
    (c0 ≠ "vegitable" → c0 ≠ "price" → c0 ≠ "stocks" →
      CshowVegitable s ⟨c0 :: c1 :: more⟩ res =
        some ⟨none, { res with Message := "Unknown command format: " ++ c0 ++ " " ++ c1,
                               Ok := false }, s⟩) ∧
    CaddVegitable s ⟨"" :: rest⟩ res = some ⟨some "Command shoud be specified!", res, s⟩ ∧
    CupdateVegitable s ⟨"" :: rest⟩ res = some ⟨some "Command shoud be specified!", res, s⟩ ∧
    CshowVegitable s ⟨"" :: rest⟩ res = some ⟨some "Command shoud be specified!", res, s⟩ := by
  refine ⟨CaddVegitable_returns s res c0 rest h0, CupdateVegitable_returns s res c0 rest h0,
    CshowVegitable_returns s res c0 c1 more h0, ?_, ?_, ?_, ?_, ?_, ?_⟩
  · intro hv
    simp [CaddVegitable, h0, hv]
  · intro h1 h2
    simp [CupdateVegitable, h0, h1, h2]
  · intro hv h1 h2
    simp [CshowVegitable, h0, hv, h1, h2]
  · simp [CaddVegitable]
  · simp [CupdateVegitable]
  · simp [CshowVegitable]

/-- The unknown target `fruit` with the arguments `apple 1`, on the store with `carrot`. -/
theorem handlers_respond_witness :
    "fruit" ≠ "" ∧
    (∃ out, CaddVegitable carrotStore ⟨["fruit", "apple", "1"]⟩ Response.zero = some out ∧
      out.err = none) ∧
    (∃ out, CupdateVegitable carrotStore ⟨["fruit", "apple", "1"]⟩ Response.zero = some out ∧
      out.err = none) ∧
    (∃ out, CshowVegitable carrotStore ⟨["fruit", "apple", "1"]⟩ Response.zero = some out ∧
      out.err = none) ∧
    CaddVegitable carrotStore ⟨["fruit", "apple", "1"]⟩ Response.zero =
      some ⟨none, { Response.zero with Message := "Unknown command format: 'add fruit'",
                                       Ok := false }, carrotStore⟩ ∧
    CupdateVegitable carrotStore ⟨["fruit", "apple", "1"]⟩ Response.zero =
      some ⟨none, { Response.zero with Message := "Unknown command format: 'add fruit'",
                                       Ok := false }, carrotStore⟩ ∧
    CshowVegitable carrotStore ⟨["fruit", "apple", "1"]⟩ Response.zero =
      some ⟨none, { Response.zero with Message := "Unknown command format: fruit apple",
                                       Ok := false }, carrotStore⟩ ∧
    CaddVegitable carrotStore ⟨["", "1"]⟩ Response.zero =
      some ⟨some "Command shoud be specified!", Response.zero, carrotStore⟩ :=
  have h := handlers_respond carrotStore Response.zero "fruit" "apple" ["apple", "1"] ["1"]
    (by decide)
  ⟨by decide, h.1, h.2.1, h.2.2.1, h.2.2.2.1 (by decide),
    h.2.2.2.2.1 (by decide) (by decide),
    h.2.2.2.2.2.1 (by decide) (by decide) (by decide), by decide⟩

/-- C9 fails as stated: on the empty token sequence each handler stops with an index
out of range, as does `CshowVegitable` on a single token, known target or not; and a
first token that is the empty string is answered with an error, not with a response
carrying `Ok = false` and a message. -/
theorem handlers_fail_on_short_input :
    CshowVegitable emptyStore ⟨[]⟩ Response.zero = none ∧
    CaddVegitable emptyStore ⟨[]⟩ Response.zero = none ∧
    CupdateVegitable emptyStore ⟨[]⟩ Response.zero = none ∧
    CshowVegitable emptyStore ⟨["vegitable"]⟩ Response.zero = none ∧
    CshowVegitable emptyStore ⟨["fruit"]⟩ Response.zero = none ∧
    CshowVegitable emptyStore ⟨["", "all"]⟩ Response.zero =
      some ⟨some "Command shoud be specified!", Response.zero, emptyStore⟩ ∧
    CaddVegitable emptyStore ⟨["", "carrot", "2.50", "100"]⟩ Response.zero =
      some ⟨some "Command shoud be specified!", Response.zero, emptyStore⟩ ∧
    CupdateVegitable emptyStore ⟨["", "carrot", "3.00"]⟩ Response.zero =
      some ⟨some "Command shoud be specified!", Response.zero, emptyStore⟩ := by
  decide

/-! ## The snapshot file -/

/-- The file after `writeToDB`: the encoded collection, then what the old content had
beyond that length. -/
theorem writeToDB_db (s : State) :
    (writeToDB s).db = utf8Bytes (xmlEncode s.vegitables)
      ++ s.db.drop (utf8Bytes (xmlEncode s.vegitables)).length := rfl

/-- When the old content is not longer than the encoded collection, the file after
`writeToDB` is the encoded collection. -/
theorem writeToDB_db_of_le (s : State)
    (h : s.db.length ≤ (utf8Bytes (xmlEncode s.vegitables)).length) :
    (writeToDB s).db = utf8Bytes (xmlEncode s.vegitables) := by
  rw [writeToDB_db, List.drop_of_length_le h, List.append_nil]

/-- C11 fails on the code: from the empty store with no snapshot file,
`add vegitable carrot 2.50 100` followed by `update price carrot 3` both succeed, and the
file then holds the encoded collection followed by `es>`, the last three bytes of the
longer document written by the add; it is not the encoded collection. -/
theorem snapshot_keeps_old_tail :
    runCalls emptyStore shorteningCalls = some shorteningEnd ∧
    shorteningEnd.vegitables.Vegitables = [⟨XmlName.zero, "carrot", "3", "100"⟩] ∧
    shorteningEnd.db = utf8Bytes (xmlEncode shorteningEnd.vegitables) ++ utf8Bytes "es>" ∧
    shorteningEnd.db ≠ utf8Bytes (xmlEncode shorteningEnd.vegitables) :=
  ⟨by rfl, rfl, by rfl, by decide⟩

/-! ## The `show` command of the server menu -/

/-- On the arguments `stocks n` with `n` other than the word `stocks`, `showVegitable`
prints the unknown-format line, whatever the store holds. -/
theorem showVegitable_stocks (s : State) (n : String) (hn : n ≠ "stocks") :
    showVegitable s ["stocks", n] = some (.line ("Unknown command format: stocks " ++ n)) := by
  have h : "Unknown command format: " ++ "stocks" ++ " " ++ n
      = "Unknown command format: stocks " ++ n := by
    rw [show "Unknown command format: stocks " = "Unknown command format: " ++ "stocks" ++ " "
      from by decide]
  simp [showVegitable, hn, h]

/-- C12 fails on the code: the menu line `show stocks carrot` reaches `showVegitable` with
the arguments `stocks carrot`, and for every store, the one with `carrot` included, the
function prints "Unknown command format: stocks carrot" and no row, because its third
branch tests `args[1]` where the other two test `args[0]`; `show price carrot` on the
same store displays the row of `carrot` with its price. -/
theorem show_stocks_unknown_format (s : State) :
    (cleanCommand "show stocks carrot\n").tail = ["stocks", "carrot"] ∧
    showVegitable s ["stocks", "carrot"]
      = some (.line "Unknown command format: stocks carrot") ∧
    hasName carrotStore "carrot" ∧
    showVegitable carrotStore ["stocks", "carrot"]
      = some (.line "Unknown command format: stocks carrot") ∧
    showVegitable carrotStore ["stocks", "carrot"]
      ≠ some (.table ["Vegitable Name", "Stocks(KG)"] [["carrot", "100"]]) ∧
    showVegitable carrotStore ["price", "carrot"]
      = some (.table ["Vegitable Name", "Unit Price"] [["carrot", "2.50"]]) := by
  refine ⟨by decide, ?_, by decide, by decide, by decide, by decide⟩
  simp [showVegitable]

end GoRpc
